import Mathlib

/-!
Shallow embedding of the Faucet service (main.go) — a single-file Go program
that dispenses a fixed amount of ether to a requested address, enforcing a
per-address cooldown.

Modelling conventions:
* Machine integers and `big.Int` values are `Int`; `uint64` values (nonce,
  gas) are `Nat`.  `time.Time` and `time.Duration` are `Int` nanoseconds,
  as in Go's `time` package.
* The 160-bit account address produced by `common.HexToAddress` is a `Nat`
  below `2 ^ 160`.
* The `ethclient.Client` is an oracle (`Ledger`) whose operations take the
  `context.Context` the caller passes, mirroring the Go signatures; the
  concrete responses are inputs to the model.
* `SendTokens` mutates its receiver's `usedAddresses` map; the embedding
  threads the `Faucet` state explicitly and returns the new state.
  The Go method reads the wall clock (`time.Since`, `time.Now`); the model
  takes the instant of the call as an explicit `now` parameter.
* Each `fmt.Errorf` site in `SendTokens` becomes one constructor of
  `SendError` carrying exactly the data the format string interpolates.
* The `sync.RWMutex` field guards the map against concurrent access; the
  sequential model needs no counterpart for it.
-/

deriving instance DecidableEq for Except

/-- Go `context.Context` values, as built by the `context` package.
`context.Background()` is the empty context: no deadline, no cancellation. -/
inductive GoContext where
  | background
  | todo
  | withCancel (parent : GoContext)
  | withTimeout (parent : GoContext) (timeoutNs : Int)
deriving DecidableEq

/-- Whether a context carries a deadline (Go `ctx.Deadline()` second result). -/
def GoContext.hasDeadline : GoContext → Bool
  | .background => false
  | .todo => false
  | .withCancel parent => parent.hasDeadline
  | .withTimeout _ _ => true

/-- Whether a context can be cancelled (has a non-nil `Done` channel). -/
def GoContext.isCancellable : GoContext → Bool
  | .background => false
  | .todo => false
  | .withCancel _ => true
  | .withTimeout _ _ => true

/-- The context expression used at every ledger call site in the source:
`context.Background()` (main.go lines 134, 140, 147, 174, 188). -/
def ledgerCallContext : GoContext := GoContext.background

/-- Go `time.Minute` in nanoseconds. -/
def minute : Int := 60 * 1000000000

/-- Go `time.Hour` in nanoseconds. -/
def hour : Int := 3600 * 1000000000

/-- Go `lessThanHalf(x, y)` helper of `time.Duration.Round`: `x+x < y`. -/
def lessThanHalf (x y : Int) : Bool := decide (x + x < y)

/-- Go `time.Duration.Round`: rounds `d` to the nearest multiple of `m`,
half away from zero.  Go's `%` truncates toward zero (`Int.tmod`).  The
`minDuration`/`maxDuration` overflow branches of the Go source are
unreachable over unbounded `Int` and are omitted. -/
def durationRound (d m : Int) : Int :=
  if m ≤ 0 then d
  else
    let r := Int.tmod d m
    if d < 0 then
      let r := -r
      if lessThanHalf r m then d + r else d - m + r
    else
      if lessThanHalf r m then d - r else d + m - r

/-- Go-ethereum `isHexCharacter`: ASCII `0-9`, `a-f`, `A-F`. -/
def isHexChar (c : Char) : Bool :=
  (48 ≤ c.toNat && c.toNat ≤ 57) ||
  (97 ≤ c.toNat && c.toNat ≤ 102) ||
  (65 ≤ c.toNat && c.toNat ≤ 70)

/-- Go-ethereum `has0xPrefix`: the string starts with `0x` or `0X`. -/
def has0x : List Char → Bool
  | c0 :: c1 :: _ => c0 == '0' && (c1 == 'x' || c1 == 'X')
  | _ => false

/-- Strip a leading `0x`/`0X` if present. -/
def drop0x (s : List Char) : List Char :=
  if has0x s then s.drop 2 else s

/-- Go-ethereum `common.IsHexAddress`: after stripping an optional `0x`/`0X`,
exactly 40 hex characters.  (Go checks byte length and an evenness condition;
over the valid alphabet both coincide with the 40-character check.) -/
def isHexAddress (s : String) : Bool :=
  let t := drop0x s.toList
  t.length == 40 && t.all isHexChar

/-- Value of one hex digit (0 for a non-digit; callers only use it on
strings accepted by `isHexAddress`). -/
def hexDigitVal (c : Char) : Nat :=
  if 48 ≤ c.toNat ∧ c.toNat ≤ 57 then c.toNat - 48
  else if 97 ≤ c.toNat ∧ c.toNat ≤ 102 then c.toNat - 87
  else if 65 ≤ c.toNat ∧ c.toNat ≤ 70 then c.toNat - 55
  else 0

/-- Go-ethereum `common.HexToAddress` on syntactically valid inputs: strip
the optional `0x`, read the hex digits big-endian, keep the low 160 bits
(Go keeps the last 20 bytes of the decoded value). -/
def hexToAddress (s : String) : Nat :=
  ((drop0x s.toList).foldl (fun a c => a * 16 + hexDigitVal c) 0) % (2 ^ 160)

/-- The fields of `ethereum.CallMsg` that `SendTokens` fills when estimating
gas (From, To, Value); the remaining fields are left at their zero values. -/
structure CallMsg where
  From : Nat
  To : Nat
  Value : Int
deriving DecidableEq

/-- The fields of `types.NewTransaction(nonce, to, amount, gasLimit,
gasPrice, data)`; `SendTokens` passes `nil` data. -/
structure Transaction where
  nonce : Nat
  toAddr : Nat
  value : Int
  gas : Nat
  gasPrice : Int
  data : Option (List Nat)
deriving DecidableEq

/-- Result of `types.SignTx` with `types.NewEIP155Signer(chainID)`: the
signature deterministically binds the transaction fields, the chain id and
the signing key; modelled as a record of the three.  (The crypto itself is
outside the source; its only failure mode is a corrupted key, so signing is
modelled as total.) -/
structure SignedTx where
  tx : Transaction
  signerChainID : Int
  signedWith : Nat
deriving DecidableEq

/-- Model of `types.SignTx(tx, types.NewEIP155Signer(chainID), privateKey)`. -/
def signTx (tx : Transaction) (chainID : Int) (privateKey : Nat) : SignedTx :=
  ⟨tx, chainID, privateKey⟩

/-- The `ethclient.Client` operations the source consumes, as an oracle:
each takes the `context.Context` the caller passes and yields either a value
or an error message. -/
structure Ledger where
  pendingNonceAt : GoContext → Nat → Except String Nat
  suggestGasPrice : GoContext → Except String Int
  estimateGas : GoContext → CallMsg → Except String Nat
  sendTransaction : GoContext → SignedTx → Except String Unit
  balanceAt : GoContext → Nat → Except String Int

/-- The `Faucet` struct of main.go.  The private key is opaque key material
(a `Nat`); the `sync.RWMutex` has no sequential counterpart. -/
structure Faucet where
  client : Ledger
  privateKey : Nat
  fromAddress : Nat
  chainID : Int
  amount : Int
  usedAddresses : String → Option Int
  cooldown : Int

/-- One constructor per `fmt.Errorf` site in `SendTokens`, carrying exactly
the data the format string interpolates.  (`signFailed` mirrors the
`types.SignTx` error branch, unreachable in this model since signing is
total.) -/
inductive SendError where
  | invalidAddress
  | cooldownActive (address : String) (remaining : Int)
  | nonceFetch (msg : String)
  | gasPriceFetch (msg : String)
  | gasEstimate (msg : String)
  | signFailed (msg : String)
  | submitFailed (msg : String)
deriving DecidableEq

/-- The condition of main.go line 128: `exists && time.Since(lastUsed) <
f.cooldown`. -/
def cooldownBlocked (f : Faucet) (now : Int) (toAddress : String) : Bool :=
  match f.usedAddresses toAddress with
  | some lastUsed => decide (now - lastUsed < f.cooldown)
  | none => false

/-- The diagnostic of main.go lines 129-130: `(f.cooldown -
time.Since(lastUsed)).Round(time.Minute)`. -/
def remainingWait (f : Faucet) (now : Int) (toAddress : String) : Int :=
  match f.usedAddresses toAddress with
  | some lastUsed => durationRound (f.cooldown - (now - lastUsed)) minute
  | none => 0

/-- `Faucet.SendTokens` (main.go lines 117-185): validate the address, check
the cooldown map under the raw request string, fetch nonce / gas price / gas
estimate, build and sign the transaction, submit it, and only then record
`now` for the raw request string.  Every failure returns the error and
leaves the state unchanged. -/
def sendTokens (f : Faucet) (now : Int) (toAddress : String) :
    Except SendError SignedTx × Faucet :=
  if isHexAddress toAddress = false then
    (Except.error SendError.invalidAddress, f)
  else if cooldownBlocked f now toAddress then
    (Except.error (SendError.cooldownActive toAddress (remainingWait f now toAddress)), f)
  else
    match f.client.pendingNonceAt ledgerCallContext f.fromAddress with
    | Except.error e => (Except.error (SendError.nonceFetch e), f)
    | Except.ok nonce =>
      match f.client.suggestGasPrice ledgerCallContext with
      | Except.error e => (Except.error (SendError.gasPriceFetch e), f)
      | Except.ok gasPrice =>
        match f.client.estimateGas ledgerCallContext
            ⟨f.fromAddress, hexToAddress toAddress, f.amount⟩ with
        | Except.error e => (Except.error (SendError.gasEstimate e), f)
        | Except.ok gas =>
          match f.client.sendTransaction ledgerCallContext
              (signTx ⟨nonce, hexToAddress toAddress, f.amount, gas, gasPrice, none⟩
                f.chainID f.privateKey) with
          | Except.error e => (Except.error (SendError.submitFailed e), f)
          | Except.ok _ =>
            (Except.ok
              (signTx ⟨nonce, hexToAddress toAddress, f.amount, gas, gasPrice, none⟩
                f.chainID f.privateKey),
             { f with usedAddresses :=
                fun k => if k = toAddress then some now else f.usedAddresses k })

/-- `Faucet.GetBalance` (main.go lines 187-193). -/
def getBalance (f : Faucet) : Except String Int :=
  f.client.balanceAt ledgerCallContext f.fromAddress

/-- Whether a `SendTokens` result is a success. -/
def isOkResult : Except SendError SignedTx → Bool
  | Except.ok _ => true
  | Except.error _ => false

/-- Whether a `SendTokens` result is the cooldown rejection. -/
def isCooldownErr : Except SendError SignedTx → Bool
  | Except.error (SendError.cooldownActive _ _) => true
  | _ => false

/-- ASCII decimal digit. -/
def isDecDigit (c : Char) : Bool := 48 ≤ c.toNat && c.toNat ≤ 57

/-- Value of a nonempty all-decimal-digit string, `none` otherwise. -/
def decDigitsVal (cs : List Char) : Option Nat :=
  if cs ≠ [] ∧ cs.all isDecDigit then
    some (cs.foldl (fun a c => a * 10 + (c.toNat - 48)) 0)
  else none

/-- An optionally signed decimal numeral: the common core of Go's
`big.Int.SetString(s, 10)` and `strconv.Atoi`.  An optional leading `+` or
`-`, then at least one digit, nothing else (base 10 forbids underscores). -/
def signedDecVal (s : String) : Option Int :=
  match s.toList with
  | '+' :: rest => (decDigitsVal rest).map Int.ofNat
  | '-' :: rest => (decDigitsVal rest).map (fun n => -(n : Int))
  | cs => (decDigitsVal cs).map Int.ofNat

/-- Go `new(big.Int).SetString(s, 10)`: an optionally signed decimal
numeral of arbitrary magnitude; `none` exactly when Go's `ok` is false. -/
def bigIntSetString10 (s : String) : Option Int := signedDecVal s

/-- Go `strconv.Atoi`: an optionally signed decimal numeral that fits a
64-bit `int`; `none` exactly when `Atoi` returns an error. -/
def atoi (s : String) : Option Int :=
  match signedDecVal s with
  | some v => if -(2 ^ 63) ≤ v ∧ v ≤ 2 ^ 63 - 1 then some v else none
  | none => none

/-- Reduce an integer into the signed 64-bit range the way Go's int64
arithmetic wraps: the representative of `x` modulo `2 ^ 64` lying in
`[-2 ^ 63, 2 ^ 63)`. -/
def wrapInt64 (x : Int) : Int :=
  (x + 2 ^ 63) % 2 ^ 64 - 2 ^ 63

/-- Default used when `FAUCET_AMOUNT` is unset: 1 ETH in wei. -/
def amountDefaultStr : String := "1000000000000000000"

/-- Default used when `COOLDOWN_HOURS` is unset: 24 hours. -/
def cooldownDefaultStr : String := "24"

/-- The configuration `NewFaucet` derives from the amount and cooldown
environment strings. -/
structure FaucetConfig where
  amount : Int
  cooldown : Int
deriving DecidableEq

/-- The amount/cooldown parsing portion of `NewFaucet` (main.go lines
86-104 and 111-113): default the empty string, parse the amount with
`big.Int.SetString` base 10 (arbitrary precision, no wrap), parse the
cooldown with `strconv.Atoi`, and turn the hours into a `time.Duration` —
`time.Duration(cooldownHours) * time.Hour` is int64 multiplication, which
wraps, hence the `wrapInt64`.  The connection dial, key decoding and
chain-id fetch that precede it are I/O against collaborators and are
outside this model. -/
def newFaucetConfig (amountStr cooldownStr : String) : Except String FaucetConfig :=
  let amountStr := if amountStr = "" then amountDefaultStr else amountStr
  match bigIntSetString10 amountStr with
  | none => Except.error "invalid FAUCET_AMOUNT"
  | some amount =>
    let cooldownStr := if cooldownStr = "" then cooldownDefaultStr else cooldownStr
    match atoi cooldownStr with
    | none => Except.error "invalid COOLDOWN_HOURS"
    | some cooldownHours => Except.ok ⟨amount, wrapInt64 (cooldownHours * hour)⟩

/-- Whether `NewFaucet`'s configuration parsing succeeds. -/
def configOk : Except String FaucetConfig → Bool
  | Except.ok _ => true
  | Except.error _ => false

/-! Concrete fixtures used by witnesses and counterexamples. -/

/-- A valid all-lowercase address string. -/
def addrLower : String := "0xaaaaaaaaaaaaaaaaaaaaaaaaaaaaaaaaaaaaaaaa"

/-- The same account address written in upper case. -/
def addrUpper : String := "0xAAAAAAAAAAAAAAAAAAAAAAAAAAAAAAAAAAAAAAAA"

/-- A valid address string for a different account. -/
def addrOther : String := "0xbbbbbbbbbbbbbbbbbbbbbbbbbbbbbbbbbbbbbbbb"

/-- A ledger whose every operation succeeds with fixed answers. -/
def okLedger : Ledger where
  pendingNonceAt := fun _ _ => Except.ok 7
  suggestGasPrice := fun _ => Except.ok 5
  estimateGas := fun _ _ => Except.ok 21000
  sendTransaction := fun _ _ => Except.ok ()
  balanceAt := fun _ _ => Except.ok 100

/-- A ledger whose every operation fails. -/
def errLedger : Ledger where
  pendingNonceAt := fun _ _ => Except.error "boom"
  suggestGasPrice := fun _ => Except.error "boom"
  estimateGas := fun _ _ => Except.error "boom"
  sendTransaction := fun _ _ => Except.error "boom"
  balanceAt := fun _ _ => Except.error "boom"

/-- A faucet over `okLedger` with an empty cooldown map and a 1-hour
cooldown. -/
def f0 : Faucet where
  client := okLedger
  privateKey := 42
  fromAddress := 1
  chainID := 5
  amount := 1000
  usedAddresses := fun _ => none
  cooldown := hour

/-- `f0` with every ledger call failing. -/
def fErr : Faucet := { f0 with client := errLedger }

/-- `f0` after a disbursement to `addrLower` recorded at time 0. -/
def fUsed : Faucet :=
  { f0 with usedAddresses := fun k => if k = addrLower then some 0 else none }

/-- `fUsed` with a negative cooldown duration. -/
def fNeg : Faucet := { fUsed with cooldown := -3 * hour }

/-- The state after a successful disbursement to `addrUpper` at time 0. -/
def fAfterUpper : Faucet := (sendTokens f0 0 addrUpper).snd

/-! Helper lemmas shared by the claim theorems. -/

/-- `SendTokens` either leaves the state unchanged or records `now` for the
raw request string. -/
theorem sendTokens_state_cases (f : Faucet) (now : Int) (s : String) :
    (sendTokens f now s).snd = f ∨
    (sendTokens f now s).snd =
      { f with usedAddresses :=
          fun k => if k = s then some now else f.usedAddresses k } := by
  unfold sendTokens
  repeat' split
  all_goals simp

/-- `SendTokens` never touches the map entry of a different key. -/
theorem sendTokens_usedAddresses_other (f : Faucet) (now : Int) (s b : String)
    (hb : b ≠ s) :
    (sendTokens f now s).snd.usedAddresses b = f.usedAddresses b := by
  rcases sendTokens_state_cases f now s with h | h <;> rw [h]
  simp [hb]

/-- When the cooldown gate does not fire, no branch of `SendTokens` produces
the cooldown rejection. -/
theorem isCooldownErr_false_of_unblocked (f : Faucet) (now : Int) (s : String)
    (h : cooldownBlocked f now s = false) :
    isCooldownErr (sendTokens f now s).fst = false := by
  unfold sendTokens
  rw [h]
  repeat' split
  all_goals simp_all [isCooldownErr]

/-- Claim C1: for every address and every faucet state, if any ledger call
made by `SendTokens` fails (the pending-nonce fetch, the gas-price fetch,
the gas estimate, or the transaction submission), then `SendTokens` returns
an error carrying the underlying message and the cooldown table (every
entry, the requested address's included) is unchanged from before the
call. -/
theorem claim_C1 (f : Faucet) (now : Int) (s : String) (e : String)
    (hval : isHexAddress s = true) (helig : cooldownBlocked f now s = false) :
    (f.client.pendingNonceAt ledgerCallContext f.fromAddress = Except.error e →
      sendTokens f now s = (Except.error (SendError.nonceFetch e), f)) ∧
    (∀ n : Nat, f.client.pendingNonceAt ledgerCallContext f.fromAddress = Except.ok n →
      f.client.suggestGasPrice ledgerCallContext = Except.error e →
      sendTokens f now s = (Except.error (SendError.gasPriceFetch e), f)) ∧
    (∀ (n : Nat) (gp : Int),
      f.client.pendingNonceAt ledgerCallContext f.fromAddress = Except.ok n →
      f.client.suggestGasPrice ledgerCallContext = Except.ok gp →
      f.client.estimateGas ledgerCallContext
          ⟨f.fromAddress, hexToAddress s, f.amount⟩ = Except.error e →
      sendTokens f now s = (Except.error (SendError.gasEstimate e), f)) ∧
    (∀ (n : Nat) (gp : Int) (g : Nat),
      f.client.pendingNonceAt ledgerCallContext f.fromAddress = Except.ok n →
      f.client.suggestGasPrice ledgerCallContext = Except.ok gp →
      f.client.estimateGas ledgerCallContext
          ⟨f.fromAddress, hexToAddress s, f.amount⟩ = Except.ok g →
      f.client.sendTransaction ledgerCallContext
          (signTx ⟨n, hexToAddress s, f.amount, g, gp, none⟩ f.chainID f.privateKey)
        = Except.error e →
      sendTokens f now s = (Except.error (SendError.submitFailed e), f)) := by
  refine ⟨fun h1 => ?_, fun n h1 h2 => ?_, fun n gp h1 h2 h3 => ?_,
    fun n gp g h1 h2 h3 h4 => ?_⟩ <;>
    simp [sendTokens, hval, helig, h1]
  · simp [h2]
  · simp [h2, h3]
  · simp [h2, h3, h4]

/-- Witness for C1 at a concrete state: with every ledger call failing, the
nonce fetch error is surfaced and the state is returned unchanged. -/
theorem claim_C1_witness :
    sendTokens fErr 0 addrLower = (Except.error (SendError.nonceFetch "boom"), fErr) :=
  (claim_C1 fErr 0 addrLower "boom" (by decide) rfl).1 rfl

/-- Claim C3: a request for an address with a recorded timestamp `t`, made
at a time `now` with `now - t < cooldown`, fails with the cooldown
rejection carrying the remaining wait rounded to the nearest minute, leaves
the state unchanged, and makes no ledger call (the same rejection results
under every possible ledger). -/
theorem claim_C3 (f : Faucet) (now t : Int) (s : String)
    (hval : isHexAddress s = true)
    (hloc : f.usedAddresses s = some t)
    (hlt : now - t < f.cooldown) :
    sendTokens f now s =
      (Except.error (SendError.cooldownActive s
        (durationRound (f.cooldown - (now - t)) minute)), f) ∧
    ∀ L' : Ledger, sendTokens { f with client := L' } now s =
      (Except.error (SendError.cooldownActive s
        (durationRound (f.cooldown - (now - t)) minute)), { f with client := L' }) := by
  constructor
  · simp [sendTokens, hval, cooldownBlocked, remainingWait, hloc, hlt]
  · intro L'
    simp [sendTokens, hval, cooldownBlocked, remainingWait, hloc, hlt]

/-- Witness for C3: a request 30 minutes into a 1-hour cooldown is rejected
with 30 minutes remaining and the state is unchanged. -/
theorem claim_C3_witness :
    sendTokens fUsed (30 * minute) addrLower =
      (Except.error (SendError.cooldownActive addrLower
        (durationRound (fUsed.cooldown - (30 * minute - 0)) minute)), fUsed) :=
  (claim_C3 fUsed (30 * minute) 0 addrLower (by decide) rfl (by decide)).1

/-- Claim C5: a request string that is not a syntactically valid hex
address is rejected identically in every faucet state — before any ledger
call, without reading or writing the cooldown table (the universally
quantified state covers every table and every ledger). -/
theorem claim_C5 (f : Faucet) (now : Int) (s : String)
    (hval : isHexAddress s = false) :
    sendTokens f now s = (Except.error SendError.invalidAddress, f) := by
  simp [sendTokens, hval]

/-- Witness for C5 at a concrete malformed address. -/
theorem claim_C5_witness :
    sendTokens f0 0 "0x123" = (Except.error SendError.invalidAddress, f0) :=
  claim_C5 f0 0 "0x123" (by decide)

/-- Claim C9: `SendTokens` never changes the configuration fields (client,
private key, from-address, chain id, amount, cooldown duration), and the
only map entry it can change is the requested address's own: every other
key reads the same before and after, on success and on failure alike. -/
theorem claim_C9 (f : Faucet) (now : Int) (s : String) :
    (sendTokens f now s).snd.client = f.client ∧
    (sendTokens f now s).snd.privateKey = f.privateKey ∧
    (sendTokens f now s).snd.fromAddress = f.fromAddress ∧
    (sendTokens f now s).snd.chainID = f.chainID ∧
    (sendTokens f now s).snd.amount = f.amount ∧
    (sendTokens f now s).snd.cooldown = f.cooldown ∧
    ∀ b : String, b ≠ s →
      (sendTokens f now s).snd.usedAddresses b = f.usedAddresses b := by
  refine ⟨?_, ?_, ?_, ?_, ?_, ?_, fun b hb => sendTokens_usedAddresses_other f now s b hb⟩ <;>
    rcases sendTokens_state_cases f now s with h | h <;> rw [h]

/-- Witness for C9: after a successful disbursement to one address, the
amount and a different address's entry are unchanged. -/
theorem claim_C9_witness :
    (sendTokens f0 0 addrLower).snd.amount = f0.amount ∧
    (sendTokens f0 0 addrLower).snd.usedAddresses addrOther =
      f0.usedAddresses addrOther :=
  ⟨(claim_C9 f0 0 addrLower).2.2.2.2.1,
   (claim_C9 f0 0 addrLower).2.2.2.2.2.2 addrOther (by decide)⟩

/-- Claim C4: a request for an address whose recorded timestamp `t` has
expired (`cooldown ≤ now - t`) is accepted when all four ledger calls
succeed; `now` is recorded as the address's new timestamp and the signed
transaction (whose hash the HTTP layer reports) is returned. -/
theorem claim_C4 (f : Faucet) (now t : Int) (s : String) (n g : Nat) (gp : Int)
    (hval : isHexAddress s = true)
    (hloc : f.usedAddresses s = some t)
    (hexp : f.cooldown ≤ now - t)
    (hn : f.client.pendingNonceAt ledgerCallContext f.fromAddress = Except.ok n)
    (hgp : f.client.suggestGasPrice ledgerCallContext = Except.ok gp)
    (hg : f.client.estimateGas ledgerCallContext
        ⟨f.fromAddress, hexToAddress s, f.amount⟩ = Except.ok g)
    (hsend : f.client.sendTransaction ledgerCallContext
        (signTx ⟨n, hexToAddress s, f.amount, g, gp, none⟩ f.chainID f.privateKey)
      = Except.ok ()) :
    (sendTokens f now s).fst =
      Except.ok (signTx ⟨n, hexToAddress s, f.amount, g, gp, none⟩
        f.chainID f.privateKey) ∧
    (sendTokens f now s).snd.usedAddresses s = some now := by
  have hb : cooldownBlocked f now s = false := by
    simp [cooldownBlocked, hloc, not_lt.mpr hexp]
  constructor <;> simp [sendTokens, hval, hb, hn, hgp, hg, hsend]

/-- Witness for C4: exactly at cooldown expiry the request is accepted and
the timestamp updated. -/
theorem claim_C4_witness :
    (sendTokens fUsed hour addrLower).fst =
      Except.ok (signTx ⟨7, hexToAddress addrLower, fUsed.amount, 21000, 5, none⟩
        fUsed.chainID fUsed.privateKey) ∧
    (sendTokens fUsed hour addrLower).snd.usedAddresses addrLower = some hour :=
  claim_C4 fUsed hour 0 addrLower 7 21000 5 (by decide) rfl (by decide)
    rfl rfl rfl rfl

/-- Claim C6: the transaction built, signed and returned for an eligible
address uses the fetched pending nonce of the faucet account, the ledger's
suggested gas price, the gas limit estimated for exactly this transfer
(from the faucet address, to the requested address, with the configured
amount), carries the configured amount with empty data, and its EIP-155
signature binds the startup-fetched chain id and the faucet's key. -/
theorem claim_C6 (f : Faucet) (now : Int) (s : String) (n g : Nat) (gp : Int)
    (hval : isHexAddress s = true)
    (helig : cooldownBlocked f now s = false)
    (hn : f.client.pendingNonceAt ledgerCallContext f.fromAddress = Except.ok n)
    (hgp : f.client.suggestGasPrice ledgerCallContext = Except.ok gp)
    (hg : f.client.estimateGas ledgerCallContext
        ⟨f.fromAddress, hexToAddress s, f.amount⟩ = Except.ok g)
    (hsend : f.client.sendTransaction ledgerCallContext
        (signTx ⟨n, hexToAddress s, f.amount, g, gp, none⟩ f.chainID f.privateKey)
      = Except.ok ()) :
    ∃ stx : SignedTx, (sendTokens f now s).fst = Except.ok stx ∧
      stx.tx.nonce = n ∧ stx.tx.gasPrice = gp ∧ stx.tx.gas = g ∧
      stx.tx.toAddr = hexToAddress s ∧ stx.tx.value = f.amount ∧
      stx.tx.data = none ∧ stx.signerChainID = f.chainID ∧
      stx.signedWith = f.privateKey := by
  refine ⟨signTx ⟨n, hexToAddress s, f.amount, g, gp, none⟩ f.chainID f.privateKey,
    ?_, rfl, rfl, rfl, rfl, rfl, rfl, rfl, rfl⟩
  simp [sendTokens, hval, helig, hn, hgp, hg, hsend]

/-- Witness for C6 at a concrete eligible request. -/
theorem claim_C6_witness :
    ∃ stx : SignedTx, (sendTokens f0 0 addrOther).fst = Except.ok stx ∧
      stx.tx.nonce = 7 ∧ stx.tx.gasPrice = 5 ∧ stx.tx.gas = 21000 ∧
      stx.tx.toAddr = hexToAddress addrOther ∧ stx.tx.value = f0.amount ∧
      stx.tx.data = none ∧ stx.signerChainID = f0.chainID ∧
      stx.signedWith = f0.privateKey :=
  claim_C6 f0 0 addrOther 7 21000 5 (by decide) rfl rfl rfl rfl rfl

/-- Counterexample to C2 as stated: the map key is the raw request string,
not a case-normalized one.  `addrUpper` and `addrLower` denote the same
account (equal `hexToAddress` values) and differ only in hex letter case;
after a successful disbursement recorded under `addrUpper` at time 0, a
request under `addrLower` at time 1 — well inside the 1-hour window — is
not rejected with the cooldown error but succeeds. -/
theorem claim_C2_counterexample :
    hexToAddress addrUpper = hexToAddress addrLower ∧
    addrUpper ≠ addrLower ∧
    isOkResult (sendTokens f0 0 addrUpper).fst = true ∧
    fAfterUpper.usedAddresses addrUpper = some 0 ∧
    fAfterUpper.usedAddresses addrLower = none ∧
    (1 : Int) - 0 < fAfterUpper.cooldown ∧
    isCooldownErr (sendTokens fAfterUpper 1 addrLower).fst = false ∧
    isOkResult (sendTokens fAfterUpper 1 addrLower).fst = true := by
  decide

/-- Claim C2 (amended): the cooldown table is keyed by the raw request
string with no case normalization, so two request strings that differ at
all — even two casings of the same account address — use distinct entries:
recording a disbursement under one string leaves the other string's entry
untouched, and a request under the other string is never rejected by the
cooldown check when that string had no entry of its own. -/
theorem claim_C2 (f : Faucet) (now now2 : Int) (s1 s2 : String)
    (hne : s2 ≠ s1)
    (hfresh : f.usedAddresses s2 = none) :
    (sendTokens f now s1).snd.usedAddresses s2 = none ∧
    isCooldownErr (sendTokens (sendTokens f now s1).snd now2 s2).fst = false := by
  have h2 : (sendTokens f now s1).snd.usedAddresses s2 = none := by
    rw [sendTokens_usedAddresses_other f now s1 s2 hne]; exact hfresh
  refine ⟨h2, isCooldownErr_false_of_unblocked _ _ _ ?_⟩
  simp [cooldownBlocked, h2]

/-- Witness for the amended C2 at the two casings of one account. -/
theorem claim_C2_witness :
    (sendTokens f0 0 addrUpper).snd.usedAddresses addrLower = none ∧
    isCooldownErr (sendTokens (sendTokens f0 0 addrUpper).snd 1 addrLower).fst
      = false :=
  claim_C2 f0 0 1 addrUpper addrLower (by decide) rfl

/-- Counterexample to C7 as stated: every ledger call site passes
`context.Background()`, which carries no deadline and cannot be cancelled —
no call runs under a cancellable deadline.  The last three conjuncts show
the calls really consult the client at that context: the same request
succeeds over `okLedger` and surfaces the client's errors over
`errLedger`. -/
theorem claim_C7_counterexample :
    GoContext.hasDeadline ledgerCallContext = false ∧
    GoContext.isCancellable ledgerCallContext = false ∧
    isOkResult (sendTokens f0 0 addrLower).fst = true ∧
    sendTokens fErr 0 addrLower = (Except.error (SendError.nonceFetch "boom"), fErr) ∧
    getBalance fErr = Except.error "boom" := by
  refine ⟨rfl, rfl, by decide, rfl, rfl⟩

/-- Claim C7 (amended): every ledger call in `SendTokens` and `GetBalance`
is made with `context.Background()`, which has no deadline and is not
cancellable; consequently both operations depend on the client only through
its behaviour at that single context, and nothing bounds a hanging call. -/
theorem claim_C7 (f : Faucet) (L' : Ledger)
    (h1 : f.client.pendingNonceAt ledgerCallContext
        = L'.pendingNonceAt ledgerCallContext)
    (h2 : f.client.suggestGasPrice ledgerCallContext
        = L'.suggestGasPrice ledgerCallContext)
    (h3 : f.client.estimateGas ledgerCallContext
        = L'.estimateGas ledgerCallContext)
    (h4 : f.client.sendTransaction ledgerCallContext
        = L'.sendTransaction ledgerCallContext)
    (h5 : f.client.balanceAt ledgerCallContext
        = L'.balanceAt ledgerCallContext) :
    GoContext.hasDeadline ledgerCallContext = false ∧
    GoContext.isCancellable ledgerCallContext = false ∧
    (∀ (now : Int) (s : String),
      (sendTokens f now s).fst = (sendTokens { f with client := L' } now s).fst ∧
      (sendTokens f now s).snd.usedAddresses
        = (sendTokens { f with client := L' } now s).snd.usedAddresses) ∧
    getBalance f = getBalance { f with client := L' } := by
  refine ⟨rfl, rfl, fun now s => ?_, ?_⟩
  · unfold sendTokens
    dsimp only
    rw [← h1, ← h2, ← h3, ← h4]
    constructor <;> repeat' split
    all_goals simp_all [cooldownBlocked, remainingWait]
  · unfold getBalance
    dsimp only
    rw [← h5]

/-- Witness for the amended C7: over `okLedger` and an agreeing client the
results coincide, and the shared context has no deadline. -/
theorem claim_C7_witness :
    GoContext.hasDeadline ledgerCallContext = false ∧
    GoContext.isCancellable ledgerCallContext = false ∧
    (∀ (now : Int) (s : String),
      (sendTokens f0 now s).fst
        = (sendTokens { f0 with client := okLedger } now s).fst ∧
      (sendTokens f0 now s).snd.usedAddresses
        = (sendTokens { f0 with client := okLedger } now s).snd.usedAddresses) ∧
    getBalance f0 = getBalance { f0 with client := okLedger } :=
  claim_C7 f0 okLedger rfl rfl rfl rfl rfl

/-- Counterexample to C8 as stated: `big.Int.SetString(s, 10)` accepts an
optional sign, so `NewFaucet` accepts the amount string `"-5"`, which is
not an unsigned integer. -/
theorem claim_C8_counterexample :
    newFaucetConfig "-5" "24" = Except.ok ⟨-5, 24 * hour⟩ ∧ (-5 : Int) < 0 := by
  exact ⟨by decide, by decide⟩

/-- Claim C8 (amended): the configuration parsing of `NewFaucet` accepts
the amount string (after defaulting the empty string) exactly when it is a
base-10 integer numeral — optionally signed, so negative amounts pass — and
the cooldown string exactly when it is a base-10 64-bit integer numeral; it
returns the corresponding startup error when either fails to parse, and
otherwise the parsed amount and the cooldown hours turned into a duration
by int64 multiplication with `time.Hour` (wrapping on overflow). -/
theorem claim_C8 (aStr cStr : String) :
    (configOk (newFaucetConfig aStr cStr) = true ↔
      (bigIntSetString10 (if aStr = "" then amountDefaultStr else aStr)).isSome
        = true ∧
      (atoi (if cStr = "" then cooldownDefaultStr else cStr)).isSome = true) ∧
    (bigIntSetString10 (if aStr = "" then amountDefaultStr else aStr) = none →
      newFaucetConfig aStr cStr = Except.error "invalid FAUCET_AMOUNT") ∧
    (∀ a : Int,
      bigIntSetString10 (if aStr = "" then amountDefaultStr else aStr) = some a →
      atoi (if cStr = "" then cooldownDefaultStr else cStr) = none →
      newFaucetConfig aStr cStr = Except.error "invalid COOLDOWN_HOURS") ∧
    (∀ a v : Int,
      bigIntSetString10 (if aStr = "" then amountDefaultStr else aStr) = some a →
      atoi (if cStr = "" then cooldownDefaultStr else cStr) = some v →
      newFaucetConfig aStr cStr = Except.ok ⟨a, wrapInt64 (v * hour)⟩) := by
  unfold newFaucetConfig configOk
  rcases ha : bigIntSetString10 (if aStr = "" then amountDefaultStr else aStr)
    with _ | a <;>
    rcases hc : atoi (if cStr = "" then cooldownDefaultStr else cStr)
      with _ | v <;>
    simp [ha, hc]

/-- Witness for the amended C8: a signed amount numeral and a signed
cooldown numeral are both accepted. -/
theorem claim_C8_witness :
    newFaucetConfig "7" "-3" = Except.ok ⟨7, wrapInt64 (-3 * hour)⟩ :=
  (claim_C8 "7" "-3").2.2.2 7 (-3) (by decide) (by decide)

/-- Claim C10: `NewFaucet` accepts any 64-bit integer cooldown-hours
string, zero and negative included, storing the int64 product of the hours
with `time.Hour`; and with a non-positive cooldown duration the eligibility
test `elapsed < cooldown` never fires (for any recorded timestamp not in
the future), so no request is rejected with the cooldown error. -/
theorem claim_C10 (cStr : String) (v : Int)
    (hne : cStr ≠ "") (hv : atoi cStr = some v) :
    newFaucetConfig "1000" cStr = Except.ok ⟨1000, wrapInt64 (v * hour)⟩ ∧
    ∀ (f : Faucet) (now t : Int) (s : String),
      f.cooldown ≤ 0 → f.usedAddresses s = some t → t ≤ now →
      cooldownBlocked f now s = false ∧
      isCooldownErr (sendTokens f now s).fst = false := by
  constructor
  · have ha : bigIntSetString10 "1000" = some 1000 := by decide
    simp [newFaucetConfig, hne, ha, hv]
  · intro f now t s hc hl ht
    have hb : cooldownBlocked f now s = false := by
      simp only [cooldownBlocked, hl, decide_eq_false_iff_not, not_lt]
      omega
    exact ⟨hb, isCooldownErr_false_of_unblocked f now s hb⟩

/-- Witness for C10: the cooldown string `"-3"` is accepted, the stored
duration really is the negative `-3 * hour` (in int64 range, so the wrap is
the identity), and with that cooldown a request for an address disbursed at
time 0 is already eligible again at time 0. -/
theorem claim_C10_witness :
    newFaucetConfig "1000" "-3" = Except.ok ⟨1000, wrapInt64 (-3 * hour)⟩ ∧
    wrapInt64 (-3 * hour) = -3 * hour ∧
    cooldownBlocked fNeg 0 addrLower = false ∧
    isCooldownErr (sendTokens fNeg 0 addrLower).fst = false := by
  obtain ⟨h1, h2⟩ := claim_C10 "-3" (-3) (by decide) (by decide)
  obtain ⟨hb, hcool⟩ := h2 fNeg 0 0 addrLower (by decide) rfl (by decide)
  exact ⟨h1, by decide, hb, hcool⟩
